import Mathlib

/-!
A shallow embedding of the stream-to-event attendance pipeline of
`src/app.py` (Flask face-recognition attendance service), together with
proofs of the spec's testable properties.

Conventions of the embedding:
* Wall-clock times of day are `Nat` seconds since midnight (Python compares
  `datetime.time` values in this order); dates are opaque `String`s in
  `YYYY-MM-DD` form, compared for equality exactly as the code compares the
  CSV `Date` column against `datetime.now().strftime("%Y-%m-%d")`.
* The attendance CSV (`attendance.csv`) is the list of its data rows (the
  header excluded), each row a `List String` as the `csv` module yields it.
* The module-level mutable globals `names_marked_today` (a Python `set`) and
  `last_check_date` are a `Finset String` and a `String` inside `AppState`.
* `datetime.now()` is passed explicitly as a `(date, time)` pair.
-/

namespace Attendance

/-- Attendance statuses as the string literals the code writes. -/
def statusEarly : String := "Early"

def statusPresent : String := "Present"

def statusAbsent : String := "Absent"

/-- The sentinel identity used by the recognition loop. -/
def unknownName : String := "Unknown"

/-- Two-digit zero padding, as `strftime` does for each time component. -/
def pad2 (n : Nat) : String :=
  if n < 10 then "0" ++ toString n else toString n

/-- `strftime("%H:%M:%S")` on a time of day given in seconds since midnight. -/
def formatHMS (t : Nat) : String :=
  pad2 (t / 3600) ++ ":" ++ pad2 (t % 3600 / 60) ++ ":" ++ pad2 (t % 60)

/-- The in-memory state of the tracker: the global variables of `app.py`
(`names_marked_today`, `last_check_date`, `ATTENDANCE_START_TIME`,
`ATTENDANCE_END_TIME`) together with the durable CSV ledger the process
reads and appends (data rows only; the header line is not modelled). -/
structure AppState where
  ledger : List (List String)
  marked : Finset String
  lastCheckDate : String
  startT : Nat
  endT : Nat
  deriving DecidableEq

/-- The status classification of `check_and_log_attendance` (app.py lines
130-135): `Early` strictly before the window start, `Absent` strictly after
the window end, `Present` otherwise. -/
def classifyStatus (startT endT t : Nat) : String :=
  if t < startT then statusEarly
  else if endT < t then statusAbsent
  else statusPresent

/-- `log_attendance` (app.py lines 111-119): append one CSV row
`[name, date, time, status]` where date and time come from `datetime.now()`
at logging time. -/
def log_attendance (s : AppState) (date : String) (t : Nat)
    (name status : String) : AppState :=
  { s with ledger := s.ledger ++ [[name, date, formatHMS t, status]] }

/-- `check_and_log_attendance` (app.py lines 122-141), the spec's
`considerMarking`: a no-op when `name` is already in `names_marked_today`;
otherwise classify the current time, append the ledger row, and only then
add the name to the marked set. `date` and `t` are `datetime.now()`. -/
def check_and_log_attendance (s : AppState) (date : String) (t : Nat)
    (name : String) : AppState :=
  if name ∈ s.marked then s
  else
    let status := classifyStatus s.startT s.endT t
    let s' := log_attendance s date t name status
    { s' with marked := insert name s'.marked }

/-- The intermediate states of one `check_and_log_attendance` call, in
program order: in the marking branch the `log_attendance` append (line 140)
completes before `names_marked_today.add` (line 141), so the list is
`[state after the append, state after the add]`. -/
def check_and_log_states (s : AppState) (date : String) (t : Nat)
    (name : String) : List AppState :=
  if name ∈ s.marked then [s]
  else
    let status := classifyStatus s.startT s.endT t
    let sMid := log_attendance s date t name status
    [sMid, { sMid with marked := insert name sMid.marked }]

/-- The row filter of `reset_daily_log` (app.py lines 87-89): data rows with
more than one column whose second column equals the given date; their first
columns are collected, in file order. -/
def current_day_entries (ledger : List (List String)) (date : String) :
    List String :=
  (ledger.filter fun row => 1 < row.length && row.getD 1 "" == date).map
    fun row => row.headD ""

/-- The set of identities the ledger records for a given date: exactly what
`reset_daily_log`'s scan collects, as a set. -/
def todayNames (ledger : List (List String)) (date : String) :
    Finset String :=
  (current_day_entries ledger date).toFinset

/-- `reset_daily_log` (app.py lines 67-108) with `datetime.now()`'s date
passed as `date`: scan the ledger for rows dated `date`; if the stored
`last_check_date` differs from `date`, clear the marked set and advance the
tracker; then either union the scanned names into the marked set (when the
scan found any) or clear it (the `elif last_check_date == current_date`
branch); finally store `date` as `last_check_date`. File creation with the
header (lines 74-78) does not change the modelled row list. -/
def reset_daily_log (s : AppState) (date : String) : AppState :=
  let entries := current_day_entries s.ledger date
  let s1 :=
    if s.lastCheckDate ≠ date then
      { s with marked := ∅, lastCheckDate := date }
    else s
  let s2 :=
    if entries ≠ [] then { s1 with marked := s1.marked ∪ entries.toFinset }
    else if s1.lastCheckDate = date then { s1 with marked := ∅ }
    else s1
  { s2 with lastCheckDate := date }

/-- The state the process starts from (app.py lines 20-25): empty marked
set, `last_check_date` initialised to today's date, default window
08:00-11:00; the durable ledger file is whatever is on disk. Startup then
calls `reset_daily_log` (line 503). -/
def initState (ledger : List (List String)) (today : String) : AppState :=
  { ledger := ledger
    marked := ∅
    lastCheckDate := today
    startT := 8 * 3600
    endT := 11 * 3600 }

/-- Startup reconstruction: module initialisation followed by the
`reset_daily_log()` call in `__main__` (app.py line 503). -/
def startup (ledger : List (List String)) (today : String) : AppState :=
  reset_daily_log (initState ledger today) today

/-- The tracker invariant of the spec: `names_marked_today` holds exactly
the identities the ledger records for `last_check_date`. -/
def Inv (s : AppState) : Prop :=
  s.marked = todayNames s.ledger s.lastCheckDate

/-- The one-sided invariant readers rely on mid-operation: every marked
identity already has a durable ledger row for the current date. -/
def WeakInv (s : AppState) : Prop :=
  s.marked ⊆ todayNames s.ledger s.lastCheckDate

instance (s : AppState) : Decidable (Inv s) := by
  unfold Inv; infer_instance

instance (s : AppState) : Decidable (WeakInv s) := by
  unfold WeakInv; infer_instance

/-- A concrete ledger: three rows dated 2024-01-02 for A, B, C and two rows
dated 2024-01-01, used to instantiate the theorems below. -/
def demoLedger : List (List String) :=
  [["A", "2024-01-02", "09:00:00", "Present"],
   ["B", "2024-01-02", "09:05:01", "Present"],
   ["C", "2024-01-02", "10:15:30", "Present"],
   ["D", "2024-01-01", "08:30:00", "Present"],
   ["E", "2024-01-01", "11:30:00", "Absent"]]

/-- The state reconstructed from `demoLedger` on 2024-01-02. -/
def demoState : AppState := startup demoLedger "2024-01-02"

/-! ### Basic lemmas about the tracker operations -/

theorem check_and_log_of_marked (s : AppState) (date : String) (t : Nat)
    (name : String) (h : name ∈ s.marked) :
    check_and_log_attendance s date t name = s := by
  simp [check_and_log_attendance, h]

theorem check_and_log_of_not_marked (s : AppState) (date : String) (t : Nat)
    (name : String) (h : name ∉ s.marked) :
    check_and_log_attendance s date t name =
      { s with
        ledger := s.ledger ++
          [[name, date, formatHMS t, classifyStatus s.startT s.endT t]]
        marked := insert name s.marked } := by
  simp [check_and_log_attendance, log_attendance, h]

theorem foldl_check_and_log_of_marked (s : AppState) (date : String)
    (name : String) (h : name ∈ s.marked) (ts : List Nat) :
    ts.foldl (fun st t2 => check_and_log_attendance st date t2 name) s = s := by
  induction ts with
  | nil => rfl
  | cons t2 ts ih =>
      simpa [check_and_log_of_marked s date t2 name h] using ih

theorem current_day_entries_append (L R : List (List String))
    (date : String) :
    current_day_entries (L ++ R) date =
      current_day_entries L date ++ current_day_entries R date := by
  simp [current_day_entries]

theorem current_day_entries_row (name date ts st : String) :
    current_day_entries [[name, date, ts, st]] date = [name] := by
  simp [current_day_entries]

theorem todayNames_append_row (L : List (List String))
    (name date ts st : String) :
    todayNames (L ++ [[name, date, ts, st]]) date =
      insert name (todayNames L date) := by
  simp [todayNames, current_day_entries_append, current_day_entries_row,
    Finset.insert_eq, Finset.union_comm]

theorem todayNames_subset_append (L R : List (List String)) (date : String) :
    todayNames L date ⊆ todayNames (L ++ R) date := by
  simp only [todayNames, current_day_entries_append, List.toFinset_append]
  exact Finset.subset_union_left

/-! ### Claim theorems -/

/-- C1: while the date is unchanged, a sequence of
`check_and_log_attendance` calls for one not-yet-marked identity appends
exactly one ledger row for that (identity, date) pair: the first call
appends the row and adds the identity to the marked set, and every later
call of the sequence leaves the state unchanged. -/
theorem c1_at_most_one_record (s : AppState) (date : String) (t : Nat)
    (name : String) (h : name ∉ s.marked) (ts : List Nat) :
    (check_and_log_attendance s date t name).ledger =
      s.ledger ++
        [[name, date, formatHMS t, classifyStatus s.startT s.endT t]] ∧
    (check_and_log_attendance s date t name).marked = insert name s.marked ∧
    ts.foldl (fun st t2 => check_and_log_attendance st date t2 name)
        (check_and_log_attendance s date t name) =
      check_and_log_attendance s date t name := by
  rw [check_and_log_of_not_marked s date t name h]
  refine ⟨rfl, rfl, ?_⟩
  exact foldl_check_and_log_of_marked _ date name (Finset.mem_insert_self _ _) ts

/-- Witness for C1 at a concrete unmarked identity and two later calls. -/
theorem c1_at_most_one_record_witness :
    "A" ∉ (initState [] "2024-01-02").marked ∧
    ((check_and_log_attendance (initState [] "2024-01-02") "2024-01-02" 30000
          "A").ledger =
        (initState [] "2024-01-02").ledger ++
          [["A", "2024-01-02", formatHMS 30000,
            classifyStatus (initState [] "2024-01-02").startT
              (initState [] "2024-01-02").endT 30000]] ∧
      (check_and_log_attendance (initState [] "2024-01-02") "2024-01-02" 30000
            "A").marked =
        insert "A" (initState [] "2024-01-02").marked ∧
      [31000, 32000].foldl
          (fun st t2 => check_and_log_attendance st "2024-01-02" t2 "A")
          (check_and_log_attendance (initState [] "2024-01-02") "2024-01-02"
            30000 "A") =
        check_and_log_attendance (initState [] "2024-01-02") "2024-01-02"
          30000 "A") :=
  ⟨by decide, c1_at_most_one_record (initState [] "2024-01-02") "2024-01-02"
    30000 "A" (by decide) [31000, 32000]⟩

/-- C3: when `check_and_log_attendance` marks a not-yet-marked identity at
time `t`, the appended row carries status `Early` when `t` is strictly
before the window start, `Absent` when strictly after the window end, and
`Present` otherwise (both bounds inclusive); for the default 08:00-11:00
window, 07:59 is Early, 08:00 and 11:00 are Present, 11:01 is Absent. -/
theorem c3_classification_boundary (s : AppState) (date : String) (t : Nat)
    (name : String) (h : name ∉ s.marked) (hw : s.startT ≤ s.endT) :
    (check_and_log_attendance s date t name).ledger =
      s.ledger ++
        [[name, date, formatHMS t, classifyStatus s.startT s.endT t]] ∧
    (t < s.startT → classifyStatus s.startT s.endT t = statusEarly) ∧
    (s.endT < t → classifyStatus s.startT s.endT t = statusAbsent) ∧
    (s.startT ≤ t → t ≤ s.endT →
      classifyStatus s.startT s.endT t = statusPresent) ∧
    classifyStatus (8 * 3600) (11 * 3600) (7 * 3600 + 59 * 60) = statusEarly ∧
    classifyStatus (8 * 3600) (11 * 3600) (8 * 3600) = statusPresent ∧
    classifyStatus (8 * 3600) (11 * 3600) (11 * 3600) = statusPresent ∧
    classifyStatus (8 * 3600) (11 * 3600) (11 * 3600 + 60) = statusAbsent := by
  refine ⟨(c1_at_most_one_record s date t name h []).1, ?_, ?_, ?_,
    by decide, by decide, by decide, by decide⟩
  · intro ht; simp [classifyStatus, ht]
  · intro ht
    have h3 : ¬ t < s.startT := by omega
    simp [classifyStatus, h3, ht]
  · intro h1 h2
    have h3 : ¬ t < s.startT := by omega
    have h4 : ¬ s.endT < t := by omega
    simp [classifyStatus, h3, h4]

/-- Witness for C3 at a concrete unmarked identity. -/
theorem c3_classification_boundary_witness :
    "A" ∉ (initState [] "2024-01-02").marked ∧
    (initState [] "2024-01-02").startT ≤ (initState [] "2024-01-02").endT ∧
    ((check_and_log_attendance (initState [] "2024-01-02") "2024-01-02" 28740
          "A").ledger =
        (initState [] "2024-01-02").ledger ++
          [["A", "2024-01-02", formatHMS 28740,
            classifyStatus (initState [] "2024-01-02").startT
              (initState [] "2024-01-02").endT 28740]] ∧
      (28740 < (initState [] "2024-01-02").startT →
        classifyStatus (initState [] "2024-01-02").startT
          (initState [] "2024-01-02").endT 28740 = statusEarly) ∧
      ((initState [] "2024-01-02").endT < 28740 →
        classifyStatus (initState [] "2024-01-02").startT
          (initState [] "2024-01-02").endT 28740 = statusAbsent) ∧
      ((initState [] "2024-01-02").startT ≤ 28740 →
        28740 ≤ (initState [] "2024-01-02").endT →
        classifyStatus (initState [] "2024-01-02").startT
          (initState [] "2024-01-02").endT 28740 = statusPresent) ∧
      classifyStatus (8 * 3600) (11 * 3600) (7 * 3600 + 59 * 60) =
        statusEarly ∧
      classifyStatus (8 * 3600) (11 * 3600) (8 * 3600) = statusPresent ∧
      classifyStatus (8 * 3600) (11 * 3600) (11 * 3600) = statusPresent ∧
      classifyStatus (8 * 3600) (11 * 3600) (11 * 3600 + 60) =
        statusAbsent) :=
  ⟨by decide, by decide,
    c3_classification_boundary (initState [] "2024-01-02") "2024-01-02" 28740
      "A" (by decide) (by decide)⟩

theorem weakInv_of_inv (s : AppState) (hInv : Inv s) : WeakInv s := by
  unfold WeakInv
  rw [hInv]

theorem weakInv_log_attendance (s : AppState) (t : Nat)
    (name status : String) (hW : WeakInv s) :
    WeakInv (log_attendance s s.lastCheckDate t name status) := by
  intro x hx
  exact Finset.mem_of_subset (todayNames_subset_append _ _ _) (hW hx)

theorem inv_check_and_log (s : AppState) (t : Nat) (name : String)
    (hInv : Inv s) :
    Inv (check_and_log_attendance s s.lastCheckDate t name) := by
  by_cases h : name ∈ s.marked
  · rw [check_and_log_of_marked _ _ _ _ h]; exact hInv
  · rw [check_and_log_of_not_marked _ _ _ _ h]
    show insert name s.marked =
      todayNames (s.ledger ++ [_]) s.lastCheckDate
    rw [todayNames_append_row, hInv]

theorem inv_reset (s : AppState) (date : String) (hW : WeakInv s) :
    Inv (reset_daily_log s date) := by
  unfold Inv reset_daily_log
  by_cases hD : s.lastCheckDate ≠ date
  · by_cases hE : current_day_entries s.ledger date = []
    · simp [hD, hE, todayNames]
    · simp [hD, hE, todayNames]
  · push_neg at hD
    by_cases hE : current_day_entries s.ledger date = []
    · simp [hD, hE, todayNames]
    · have hsub : s.marked ⊆ (current_day_entries s.ledger date).toFinset := by
        have := hW
        unfold WeakInv todayNames at this
        rwa [hD] at this
      simp [hD, hE, todayNames, Finset.union_eq_right.mpr hsub]

/-- C2: the tracker invariant — an identity is in `names_marked_today` iff
the ledger holds a row for it dated `last_check_date` — is preserved exactly
by `check_and_log_attendance` (called, as in the frame loop, after the
rollover check, so with the current date), re-established exactly by
`reset_daily_log` and by startup reconstruction, and every intermediate
state inside `check_and_log_attendance` satisfies the one-sided invariant
(marked only if recorded), because the ledger append precedes the
`marked.add`. -/
theorem c2_marked_iff_ledger (s : AppState) (t : Nat) (name date : String)
    (hInv : Inv s) :
    Inv (check_and_log_attendance s s.lastCheckDate t name) ∧
    Inv (reset_daily_log s date) ∧
    Inv (startup s.ledger date) ∧
    (∀ s' ∈ check_and_log_states s s.lastCheckDate t name, WeakInv s') ∧
    (check_and_log_states s s.lastCheckDate t name).getLast? =
      some (check_and_log_attendance s s.lastCheckDate t name) := by
  refine ⟨inv_check_and_log s t name hInv,
    inv_reset s date (weakInv_of_inv s hInv),
    inv_reset (initState s.ledger date) date ?_, ?_, ?_⟩
  · intro x hx
    simp [initState] at hx
  · intro s' hs'
    by_cases h : name ∈ s.marked
    · simp only [check_and_log_states, if_pos h, List.mem_singleton] at hs'
      subst hs'
      exact weakInv_of_inv _ hInv
    · simp only [check_and_log_states, if_neg h, List.mem_cons,
        List.mem_singleton, List.not_mem_nil, or_false] at hs'
      rcases hs' with rfl | rfl
      · exact weakInv_log_attendance s t name _ (weakInv_of_inv s hInv)
      · have hfin := inv_check_and_log s t name hInv
        rw [check_and_log_of_not_marked _ _ _ _ h] at hfin
        exact weakInv_of_inv _ hfin
  · by_cases h : name ∈ s.marked <;>
      simp [check_and_log_states, check_and_log_attendance, log_attendance, h]

/-- Witness for C2 at the reconstructed demo state. -/
theorem c2_marked_iff_ledger_witness :
    Inv demoState ∧
    (Inv (check_and_log_attendance demoState demoState.lastCheckDate 30000
        "F") ∧
      Inv (reset_daily_log demoState "2024-01-03") ∧
      Inv (startup demoState.ledger "2024-01-03") ∧
      (∀ s' ∈ check_and_log_states demoState demoState.lastCheckDate 30000
          "F", WeakInv s') ∧
      (check_and_log_states demoState demoState.lastCheckDate 30000
          "F").getLast? =
        some (check_and_log_attendance demoState demoState.lastCheckDate
          30000 "F")) :=
  ⟨by decide, c2_marked_iff_ledger demoState 30000 "F" "2024-01-03"
    (by decide)⟩

theorem reset_same_date (s : AppState) (hInv : Inv s) :
    reset_daily_log s s.lastCheckDate = s := by
  obtain ⟨L, m, d, a, b⟩ := s
  have hInv' : m = todayNames L d := hInv
  unfold reset_daily_log
  by_cases hE : current_day_entries L d = []
  · have hm : m = ∅ := by
      rw [hInv']
      simp only [todayNames]
      rw [hE]
      rfl
    simp [hE, hm]
  · have hm : m ∪ (current_day_entries L d).toFinset = m := by
      rw [hInv']
      simp [todayNames]
    simp [hE, hm]

/-- C4: with the tracker invariant in force, `reset_daily_log` at the
unchanged date is the identity (so iterating it any number of times changes
nothing); one call at a new date with no ledger rows clears the marked set
and advances `last_check_date`, after which `check_and_log_attendance` for
an identity marked on the previous date appends a fresh row dated the new
date. -/
theorem c4_rollover (s : AppState) (newDate : String) (t : Nat)
    (name : String) (hInv : Inv s) :
    (∀ n : Nat, (fun st => reset_daily_log st s.lastCheckDate)^[n] s = s) ∧
    (s.lastCheckDate ≠ newDate → current_day_entries s.ledger newDate = [] →
      name ∈ s.marked →
      (reset_daily_log s newDate).marked = ∅ ∧
      (reset_daily_log s newDate).lastCheckDate = newDate ∧
      (reset_daily_log s newDate).ledger = s.ledger ∧
      (check_and_log_attendance (reset_daily_log s newDate) newDate t
          name).ledger =
        s.ledger ++
          [[name, newDate, formatHMS t,
            classifyStatus s.startT s.endT t]]) := by
  constructor
  · intro n
    induction n with
    | zero => rfl
    | succ k ih =>
        rw [Function.iterate_succ_apply', ih, reset_same_date s hInv]
  · intro hD hE _
    have hr : reset_daily_log s newDate =
        { s with marked := ∅, lastCheckDate := newDate } := by
      simp [reset_daily_log, hD, hE]
    rw [hr]
    refine ⟨rfl, rfl, rfl, ?_⟩
    rw [check_and_log_of_not_marked _ _ _ _ (Finset.not_mem_empty name)]

/-- Witness for C4 at the reconstructed demo state and a fresh date. -/
theorem c4_rollover_witness :
    Inv demoState ∧
    ((∀ n : Nat,
        (fun st => reset_daily_log st demoState.lastCheckDate)^[n] demoState =
          demoState) ∧
      (demoState.lastCheckDate ≠ "2024-01-03" →
        current_day_entries demoState.ledger "2024-01-03" = [] →
        "A" ∈ demoState.marked →
        (reset_daily_log demoState "2024-01-03").marked = ∅ ∧
        (reset_daily_log demoState "2024-01-03").lastCheckDate =
          "2024-01-03" ∧
        (reset_daily_log demoState "2024-01-03").ledger = demoState.ledger ∧
        (check_and_log_attendance (reset_daily_log demoState "2024-01-03")
            "2024-01-03" 30000 "A").ledger =
          demoState.ledger ++
            [["A", "2024-01-03", formatHMS 30000,
              classifyStatus demoState.startT demoState.endT 30000]])) :=
  ⟨by decide, c4_rollover demoState "2024-01-03" 30000 "A" (by decide)⟩

/-- C5: startup reconstruction seeds the marked set with exactly the
identities of ledger rows dated today, leaving the ledger itself untouched;
on the concrete five-row ledger with A, B, C dated today and two rows dated
yesterday it yields `marked = {A, B, C}` and `current_date = today`. -/
theorem c5_restart_recovery :
    (∀ (ledger : List (List String)) (today : String),
      (startup ledger today).marked = todayNames ledger today ∧
      (startup ledger today).lastCheckDate = today ∧
      (startup ledger today).ledger = ledger) ∧
    demoState.marked = {"A", "B", "C"} ∧
    demoState.lastCheckDate = "2024-01-02" := by
  refine ⟨fun ledger today => ?_, by decide, by decide⟩
  unfold startup reset_daily_log initState todayNames
  by_cases hE : current_day_entries ledger today = [] <;>
    simp [hE]

/-- `check_and_log_attendance` never puts the sentinel `Unknown` into the
marked set: it only ever inserts its argument, and the recognition loop
calls it only on recognized (non-Unknown) names. -/
theorem unknown_stays_unmarked (s : AppState) (date : String) (t : Nat)
    (name : String) (hn : name ≠ unknownName) (h : unknownName ∉ s.marked) :
    unknownName ∉ (check_and_log_attendance s date t name).marked := by
  by_cases hm : name ∈ s.marked
  · rw [check_and_log_of_marked _ _ _ _ hm]; exact h
  · rw [check_and_log_of_not_marked _ _ _ _ hm]
    simp only [Finset.mem_insert]
    rintro (hEq | hMem)
    · exact hn hEq.symm
    · exact h hMem

/-! ## The frame loop of `generate_frames` (app.py lines 145-275)

The loop is embedded as a step function over explicit inputs: the result of
each `video_capture.read()` call and, for processed cycles, the detections
the external face-recognition capability returns. Events the loop performs
on the capture handle (release, sleep, re-open) are recorded as a trace. -/

/-- A decoded frame: its numpy shape, whether its dtype is already uint8,
and whether `astype(np.uint8)` would succeed on it. -/
structure Frame where
  shape : List Nat
  isUint8 : Bool
  castOk : Bool
  deriving DecidableEq

/-- `numpy`'s `.size`: the product of the dimensions. -/
def Frame.size (f : Frame) : Nat := f.shape.foldl (· * ·) 1

/-- One `video_capture.read()` result: `failure` covers `success == False`
and `frame is None`. -/
inductive ReadResult where
  | failure
  | frame (f : Frame)
  deriving DecidableEq

/-- The test on app.py line 195: a shape the code promotes with
`cv2.COLOR_GRAY2BGR` (two dimensions, or three with one channel). -/
def isGrayShape (sh : List Nat) : Prop :=
  sh.length = 2 ∨ (sh.length = 3 ∧ sh.getD 2 0 = 1)

/-- The complement of the test on app.py line 197: a genuine 3-channel
frame. -/
def isColorShape (sh : List Nat) : Prop :=
  sh.length = 3 ∧ sh.getD 2 0 = 3

instance (sh : List Nat) : Decidable (isGrayShape sh) := by
  unfold isGrayShape; infer_instance

instance (sh : List Nat) : Decidable (isColorShape sh) := by
  unfold isColorShape; infer_instance

/-- What one loop iteration does with a read result on a processing cycle
(app.py lines 170-200): a failed read or an empty frame takes the
reconnect branch (release, 2s sleep, re-open); a frame whose dtype cannot
be cast to uint8, or whose shape is neither promotable grayscale nor
3-channel, is skipped for the cycle; grayscale frames are promoted;
3-channel frames are processed. -/
inductive FrameAction where
  | reconnect
  | skipCycle
  | promoteGray
  | processColor
  deriving DecidableEq

def frameDispatch : ReadResult → FrameAction
  | .failure => .reconnect
  | .frame f =>
    if f.size = 0 then .reconnect
    else if ¬ f.isUint8 = true ∧ ¬ f.castOk = true then .skipCycle
    else if isGrayShape f.shape then .promoteGray
    else if ¬ isColorShape f.shape then .skipCycle
    else .processColor

/-- Events performed on the capture handle. -/
inductive Ev where
  | release
  | sleep (secs : Nat)
  | openUrl
  | openLocal
  deriving DecidableEq

/-- What each frame action does to the capture handle: only the reconnect
branch (app.py lines 174-177) releases the handle, sleeps 2 seconds and
re-opens the configured URL; a skipped cycle touches nothing. -/
def actionEvents : FrameAction → List Ev
  | .reconnect => [.release, .sleep 2, .openUrl]
  | _ => []

/-- The initial open with fallback (app.py lines 148-157): try the
configured URL; on failure try local device index 0; if both fail the
producer returns (halts). -/
inductive InitOpen where
  | urlStream
  | localCamera
  | halted
  deriving DecidableEq

def initialOpen (urlOk localOk : Bool) : InitOpen :=
  if urlOk then .urlStream else if localOk then .localCamera else .halted

/-- The mid-run retry loop (app.py lines 173-180), driven by an oracle
giving each re-open attempt's outcome: every failed read releases the
handle, sleeps 2 seconds and re-opens the configured URL; while the
re-open fails the next read fails again and the same branch repeats; once
a re-open succeeds the loop streams on. The produced value is the event
trace on the capture handle. -/
def retryTrace : List Bool → List Ev
  | [] => []
  | ok :: rest =>
      Ev.release :: Ev.sleep 2 :: Ev.openUrl ::
        (if ok then [] else retryTrace rest)

/-- The number of `open` attempts in a trace. -/
def countOpens : List Ev → Nat
  | [] => 0
  | Ev.openUrl :: tr => countOpens tr + 1
  | _ :: tr => countOpens tr

theorem retryTrace_no_local : ∀ oracle : List Bool,
    Ev.openLocal ∉ retryTrace oracle := by
  intro oracle
  induction oracle with
  | nil => simp [retryTrace]
  | cons ok rest ih =>
      simp only [retryTrace, List.mem_cons]
      rintro (h | h | h | h)
      · cases h
      · cases h
      · cases h
      · by_cases hok : ok
        · simp [hok] at h
        · simp only [hok, if_false] at h
          exact ih h

theorem retryTrace_replicate_false (n : Nat) :
    countOpens (retryTrace (List.replicate n false)) = n := by
  induction n with
  | zero => rfl
  | succ k ih => simp [List.replicate_succ, retryTrace, countOpens, ih]

theorem retryTrace_sleep_before_open :
    ∀ (oracle : List Bool) (i : Nat),
      (retryTrace oracle)[i]? = some Ev.openUrl →
      1 ≤ i ∧ (retryTrace oracle)[i - 1]? = some (Ev.sleep 2) := by
  intro oracle
  induction oracle with
  | nil => intro i h; simp [retryTrace] at h
  | cons ok rest ih =>
      intro i h
      match i with
      | 0 => simp [retryTrace] at h
      | 1 => simp [retryTrace] at h
      | 2 => exact ⟨by omega, rfl⟩
      | (n + 3) =>
          simp only [retryTrace, List.getElem?_cons_succ] at h
          by_cases hok : ok
          · simp [hok] at h
          · simp only [hok, if_false] at h
            obtain ⟨h1, h2⟩ := ih n h
            refine ⟨by omega, ?_⟩
            match n, h1 with
            | (m + 1), _ =>
                simp only [retryTrace, List.getElem?_cons_succ, hok, if_false]
                simpa using h2

/-- C6: the mid-run retry loop releases the handle, sleeps the fixed
2-second backoff and re-opens the configured URL on every failure, forever
(one open per failure, never giving up); a source that fails to open twice
and then succeeds is reached in exactly 3 open attempts, each preceded by
the 2-second sleep; the local-camera fallback exists only in the initial
open (it is never an event of the retry loop). -/
theorem c6_reconnect_loop :
    retryTrace [false, false, true] =
      [Ev.release, Ev.sleep 2, Ev.openUrl,
       Ev.release, Ev.sleep 2, Ev.openUrl,
       Ev.release, Ev.sleep 2, Ev.openUrl] ∧
    countOpens (retryTrace [false, false, true]) = 3 ∧
    (∀ oracle : List Bool, Ev.openLocal ∉ retryTrace oracle) ∧
    (∀ n : Nat, countOpens (retryTrace (List.replicate n false)) = n) ∧
    (∀ (oracle : List Bool) (i : Nat),
      (retryTrace oracle)[i]? = some Ev.openUrl →
      (retryTrace oracle)[i - 1]? = some (Ev.sleep 2)) ∧
    initialOpen false true = InitOpen.localCamera ∧
    (∀ b : Bool, initialOpen true b = InitOpen.urlStream) ∧
    initialOpen false false = InitOpen.halted :=
  ⟨by decide, by decide, retryTrace_no_local, retryTrace_replicate_false,
    fun oracle i h => (retryTrace_sleep_before_open oracle i h).2,
    by decide, fun b => by cases b <;> decide, by decide⟩

/-- C9 counterexample: a non-empty frame with four channels is skipped for
the cycle, while an empty frame takes the reconnect branch — the two are
not rejected the same way: the skip path performs none of the
release/sleep/re-open events of the empty-frame path. -/
theorem c9_counterexample :
    frameDispatch (.frame ⟨[480, 640, 4], true, true⟩) =
      FrameAction.skipCycle ∧
    frameDispatch (.frame ⟨[0], true, true⟩) = FrameAction.reconnect ∧
    frameDispatch .failure = FrameAction.reconnect ∧
    FrameAction.skipCycle ≠ FrameAction.reconnect ∧
    actionEvents FrameAction.skipCycle = [] ∧
    actionEvents FrameAction.reconnect =
      [Ev.release, Ev.sleep 2, Ev.openUrl] := by
  decide

/-- C9 amended: a decoded non-empty uint8 frame whose layout is neither
promotable grayscale nor 3-channel is rejected by skipping the processing
cycle — the loop continues without the release/backoff/re-open treatment
an empty frame receives — while a single-channel (grayscale) frame is
promoted by channel replication and processed rather than rejected. -/
theorem c9_amended_malformed_skipped (f : Frame) (h0 : f.size ≠ 0)
    (hu : f.isUint8 = true) :
    (¬ isGrayShape f.shape → ¬ isColorShape f.shape →
      frameDispatch (.frame f) = FrameAction.skipCycle) ∧
    (isGrayShape f.shape → frameDispatch (.frame f) =
      FrameAction.promoteGray) ∧
    frameDispatch (.frame f) ≠ FrameAction.reconnect ∧
    actionEvents FrameAction.skipCycle = [] := by
  refine ⟨?_, ?_, ?_, rfl⟩
  · intro hg hc
    simp [frameDispatch, h0, hu, hg, hc]
  · intro hg
    simp [frameDispatch, h0, hu, hg]
  · unfold frameDispatch
    simp only [h0, if_false, hu]
    split
    · simp_all
    · split
      · simp
      · split <;> simp

/-- Witness for the amended C9 at a concrete 4-channel frame. -/
theorem c9_amended_malformed_skipped_witness :
    (Frame.mk [480, 640, 4] true true).size ≠ 0 ∧
    (Frame.mk [480, 640, 4] true true).isUint8 = true ∧
    ((¬ isGrayShape (Frame.mk [480, 640, 4] true true).shape →
        ¬ isColorShape (Frame.mk [480, 640, 4] true true).shape →
        frameDispatch (.frame (Frame.mk [480, 640, 4] true true)) =
          FrameAction.skipCycle) ∧
      (isGrayShape (Frame.mk [480, 640, 4] true true).shape →
        frameDispatch (.frame (Frame.mk [480, 640, 4] true true)) =
          FrameAction.promoteGray) ∧
      frameDispatch (.frame (Frame.mk [480, 640, 4] true true)) ≠
        FrameAction.reconnect ∧
      actionEvents FrameAction.skipCycle = []) :=
  ⟨by decide, by decide,
    c9_amended_malformed_skipped (Frame.mk [480, 640, 4] true true)
      (by decide) (by decide)⟩

/-! ## Per-iteration state of `generate_frames` and the unassigned-locals
hazard -/

/-- The detection results of a processed cycle: the values of the local
variables `face_locations` and `face_names` (app.py lines 214-241). -/
structure Detections where
  locations : List (Nat × Nat × Nat × Nat)
  names : List String
  deriving DecidableEq

/-- The loop-carried state of `generate_frames`: the `process_this_frame`
flag and the detection locals, which are `none` until the first processing
cycle reaches their assignment — reading them then raises
`NameError`/`UnboundLocalError` in Python. -/
structure LoopState where
  processThis : Bool
  dets : Option Detections
  deriving DecidableEq

/-- The state right after `process_this_frame = True` on app.py line 161:
the detection locals have never been assigned. -/
def initLoopState : LoopState := { processThis := true, dets := none }

/-- The outcome of one iteration of the `while True` loop. -/
inductive StepResult where
  | yielded (next : LoopState)
  | skipped (next : LoopState)
  | reconnecting (next : LoopState)
  | crashNameError
  deriving DecidableEq

/-- One iteration of the `while True` loop (app.py lines 163-275), with the
read result and the external capability's detections for this cycle passed
in. A failed or empty read takes the reconnect branch and `continue`s with
the state unchanged. On a processing cycle, an uncastable dtype or a
malformed shape toggles the flag and `continue`s before the annotation
loop; otherwise the detection locals are assigned and the annotated frame
is yielded. On a skip cycle the flag is toggled and the annotation loop
reads the detection locals: if they have never been assigned the generator
raises `NameError` and terminates. -/
def loopStep (st : LoopState) (r : ReadResult) (found : Detections) :
    StepResult :=
  match r with
  | .failure => .reconnecting st
  | .frame f =>
    if f.size = 0 then .reconnecting st
    else if st.processThis then
      if ¬ f.isUint8 = true ∧ ¬ f.castOk = true then
        .skipped { st with processThis := ¬ st.processThis }
      else if isGrayShape f.shape ∨ isColorShape f.shape then
        .yielded { processThis := ¬ st.processThis, dets := some found }
      else
        .skipped { st with processThis := ¬ st.processThis }
    else
      match st.dets with
      | none => .crashNameError
      | some _ => .yielded { st with processThis := ¬ st.processThis }

/-- Whether the producer is still alive after a list of iterations. -/
inductive LoopOutcome where
  | running (st : LoopState)
  | crashed
  deriving DecidableEq

def runLoop (st : LoopState) :
    List (ReadResult × Detections) → LoopOutcome
  | [] => .running st
  | (r, found) :: rest =>
    match loopStep st r found with
    | .crashNameError => .crashed
    | .yielded st' => runLoop st' rest
    | .skipped st' => runLoop st' rest
    | .reconnecting st' => runLoop st' rest

/-- C10: if the first processing cycle skips its frame (uncastable dtype,
or malformed shape), the flag is toggled and the next iteration takes the
skip path, whose annotation loop reads the never-assigned detection
locals: the generator raises `NameError` and the producer terminates —
shown both step by step and for the whole run, for a first frame with a
failing uint8 cast and for a first frame with a malformed shape. -/
theorem c10_skip_path_unassigned_locals_crash :
    loopStep initLoopState (.frame (Frame.mk [480, 640, 3] false false))
        (Detections.mk [] []) =
      StepResult.skipped { processThis := false, dets := none } ∧
    loopStep initLoopState (.frame (Frame.mk [480, 640, 4] true true))
        (Detections.mk [] []) =
      StepResult.skipped { processThis := false, dets := none } ∧
    loopStep { processThis := false, dets := none }
        (.frame (Frame.mk [480, 640, 3] true true)) (Detections.mk [] []) =
      StepResult.crashNameError ∧
    runLoop initLoopState
        [(.frame (Frame.mk [480, 640, 3] false false), Detections.mk [] []),
         (.frame (Frame.mk [480, 640, 3] true true), Detections.mk [] [])] =
      LoopOutcome.crashed ∧
    runLoop initLoopState
        [(.frame (Frame.mk [480, 640, 4] true true), Detections.mk [] []),
         (.frame (Frame.mk [480, 640, 3] true true), Detections.mk [] [])] =
      LoopOutcome.crashed := by
  decide

/-! ## The per-face recognition step (app.py lines 228-241)

Face distances are embedded as rationals; `np.argmin` is the index of the
first minimum, and `face_recognition.compare_faces` at its default
tolerance is the pointwise test `distance ≤ 0.6`. -/

/-- `np.argmin`'s scan: carry the index of the running minimum and its
value; a strictly smaller element takes over (so ties keep the first). -/
def argminAux (i best : Nat) (bestVal : ℚ) : List ℚ → Nat
  | [] => best
  | d :: ds =>
      if d < bestVal then argminAux (i + 1) i d ds
      else argminAux (i + 1) best bestVal ds

/-- `np.argmin` on the distance array (nonempty whenever the loop body
runs, since it is guarded by `if known_face_encodings:`). -/
def argmin : List ℚ → Nat
  | [] => 0
  | d :: ds => argminAux 1 0 d ds

/-- `face_recognition.compare_faces(known, enc)` at the default tolerance:
one boolean per known encoding, true iff its distance is at most 0.6. -/
def compare_faces (dists : List ℚ) : List Bool :=
  dists.map fun d => decide (d ≤ 0.6)

/-- The per-face naming step (app.py lines 228-241): `name` starts as
`Unknown`; if `compare_faces[best_match_index]` holds and the distance at
that index is strictly below 0.6, the known name at that index is taken
and `check_and_log_attendance` is invoked. Returns the name and whether
attendance marking was invoked. -/
def recognizeFace (knownNames : List String) (dists : List ℚ) :
    String × Bool :=
  let best := argmin dists
  if (compare_faces dists).getD best false = true ∧
      dists.getD best 1 < 0.6 then
    (knownNames.getD best "", true)
  else
    (unknownName, false)

theorem getD_eq_getElem {α : Type} (l : List α) (n : Nat) (d : α)
    (h : n < l.length) : l.getD n d = l[n] := by
  simp [List.getD_eq_getElem?_getD, List.getElem?_eq_getElem h]

theorem argminAux_spec (G : List ℚ) :
    ∀ (ds : List ℚ) (i best : Nat) (bestVal : ℚ),
      G.drop i = ds → best < G.length → G.getD best 1 = bestVal →
      argminAux i best bestVal ds < G.length ∧
      G.getD (argminAux i best bestVal ds) 1 ≤ bestVal ∧
      ∀ d ∈ ds, G.getD (argminAux i best bestVal ds) 1 ≤ d := by
  intro ds
  induction ds with
  | nil =>
      intro i best bestVal _ hb hv
      exact ⟨hb, le_of_eq hv, by simp⟩
  | cons d ds ih =>
      intro i best bestVal hdrop hb hv
      have hi : i < G.length := by
        by_contra hle
        push_neg at hle
        rw [List.drop_eq_nil_of_le hle] at hdrop
        cases hdrop
      have hcons := List.drop_eq_getElem_cons (l := G) hi
      rw [hdrop] at hcons
      injection hcons with hd htail
      by_cases hlt : d < bestVal
      · have hrec := ih (i + 1) i d htail.symm hi
          (by rw [getD_eq_getElem G i 1 hi, hd])
        rw [argminAux, if_pos hlt]
        refine ⟨hrec.1, hrec.2.1.trans hlt.le, ?_⟩
        intro x hx
        rcases List.mem_cons.mp hx with rfl | hx
        · exact hrec.2.1
        · exact hrec.2.2 x hx
      · have hrec := ih (i + 1) best bestVal htail.symm hb hv
        rw [argminAux, if_neg hlt]
        refine ⟨hrec.1, hrec.2.1, ?_⟩
        intro x hx
        rcases List.mem_cons.mp hx with rfl | hx
        · exact hrec.2.1.trans (le_of_not_lt hlt)
        · exact hrec.2.2 x hx

theorem argmin_spec (dists : List ℚ) (hne : dists ≠ []) :
    argmin dists < dists.length ∧
    ∀ d ∈ dists, dists.getD (argmin dists) 1 ≤ d := by
  match dists with
  | d :: ds =>
      have h := argminAux_spec (d :: ds) ds 1 0 d rfl (by simp) rfl
      refine ⟨h.1, ?_⟩
      intro x hx
      rcases List.mem_cons.mp hx with rfl | hx
      · exact h.2.1
      · exact h.2.2 x hx

/-- C7: in the recognition step, a face is given a known identity (and
forwarded to attendance marking) only when the distance at the nearest
known index is strictly below 0.6; whenever that nearest distance is at
least 0.6 the face is labeled Unknown and attendance is not marked,
regardless of which index is nearest. The first two conjuncts show the
index the code selects is in range and realises the minimum distance. -/
theorem c7_unknown_threshold (knownNames : List String) (dists : List ℚ)
    (hne : dists ≠ []) :
    argmin dists < dists.length ∧
    (∀ d ∈ dists, dists.getD (argmin dists) 1 ≤ d) ∧
    ((0.6 : ℚ) ≤ dists.getD (argmin dists) 1 →
      recognizeFace knownNames dists = (unknownName, false)) ∧
    ((recognizeFace knownNames dists).2 = true →
      dists.getD (argmin dists) 1 < 0.6 ∧
      (recognizeFace knownNames dists).1 =
        knownNames.getD (argmin dists) "") := by
  obtain ⟨hlen, hmin⟩ := argmin_spec dists hne
  refine ⟨hlen, hmin, ?_, ?_⟩
  · intro hge
    unfold recognizeFace
    rw [if_neg]
    rintro ⟨-, hlt⟩
    exact absurd hlt (not_lt.mpr hge)
  · intro hmark
    unfold recognizeFace at hmark ⊢
    by_cases hc : (compare_faces dists).getD (argmin dists) false = true ∧
        dists.getD (argmin dists) 1 < 0.6
    · rw [if_pos hc]
      exact ⟨hc.2, rfl⟩
    · rw [if_neg hc] at hmark
      cases hmark

/-- Witness for C7 on a concrete two-entry distance list. -/
theorem c7_unknown_threshold_witness :
    ([(7 : ℚ)/10, 3/10] ≠ ([] : List ℚ)) ∧
    (argmin [(7 : ℚ)/10, 3/10] < ([(7 : ℚ)/10, 3/10] : List ℚ).length ∧
      (∀ d ∈ [(7 : ℚ)/10, 3/10],
        ([(7 : ℚ)/10, 3/10] : List ℚ).getD (argmin [(7 : ℚ)/10, 3/10]) 1 ≤
          d) ∧
      ((0.6 : ℚ) ≤
          ([(7 : ℚ)/10, 3/10] : List ℚ).getD (argmin [(7 : ℚ)/10, 3/10]) 1 →
        recognizeFace ["alice", "bob"] [(7 : ℚ)/10, 3/10] =
          (unknownName, false)) ∧
      ((recognizeFace ["alice", "bob"] [(7 : ℚ)/10, 3/10]).2 = true →
        ([(7 : ℚ)/10, 3/10] : List ℚ).getD (argmin [(7 : ℚ)/10, 3/10]) 1 <
          0.6 ∧
        (recognizeFace ["alice", "bob"] [(7 : ℚ)/10, 3/10]).1 =
          ["alice", "bob"].getD (argmin [(7 : ℚ)/10, 3/10]) "")) :=
  ⟨by decide, c7_unknown_threshold ["alice", "bob"] [(7 : ℚ)/10, 3/10]
    (by decide)⟩

/-! ## The annotation colour policy (app.py lines 246-267) -/

/-- A BGR colour triple as passed to `cv2.rectangle`. -/
abbrev Color := Nat × Nat × Nat

/-- App.py lines 252-254: green `(0,255,0)` if the name is recognized and
not yet marked, otherwise red `(0,0,255)`; then overridden to yellow
`(255,255,0)` whenever the name is in the marked set. -/
def boxColor (name : String) (marked : Finset String) : Color :=
  let c : Color :=
    if name ≠ unknownName ∧ name ∉ marked then (0, 255, 0) else (0, 0, 255)
  if name ∈ marked then (255, 255, 0) else c

/-- C8: for every annotated face, the box is green when the name is
recognized and not yet in the marked-today set, yellow when recognized and
already marked, and red when the name is Unknown — the latter under the
reachability fact that the sentinel `Unknown` is never itself marked (cf.
`unknown_stays_unmarked`). -/
theorem c8_color_policy (name : String) (marked : Finset String)
    (hU : unknownName ∉ marked) :
    (name ≠ unknownName → name ∉ marked →
      boxColor name marked = (0, 255, 0)) ∧
    (name ≠ unknownName → name ∈ marked →
      boxColor name marked = (255, 255, 0)) ∧
    (name = unknownName → boxColor name marked = (0, 0, 255)) := by
  refine ⟨?_, ?_, ?_⟩
  · intro hn hm
    simp [boxColor, hn, hm]
  · intro _ hm
    simp [boxColor, hm]
  · intro hEq
    subst hEq
    simp [boxColor, hU]

/-- Witness for C8 with the sentinel name and a one-element marked set. -/
theorem c8_color_policy_witness :
    unknownName ∉ ({"A"} : Finset String) ∧
    (("Unknown" ≠ unknownName → "Unknown" ∉ ({"A"} : Finset String) →
        boxColor "Unknown" {"A"} = (0, 255, 0)) ∧
      ("Unknown" ≠ unknownName → "Unknown" ∈ ({"A"} : Finset String) →
        boxColor "Unknown" {"A"} = (255, 255, 0)) ∧
      ("Unknown" = unknownName → boxColor "Unknown" {"A"} = (0, 0, 255))) :=
  ⟨by decide, c8_color_policy "Unknown" {"A"} (by decide)⟩

end Attendance
